import Mathlib

/-!
Verification of the Inundation_differences repository.

Two pipelines are embedded here:

* `Inundation_detector.py` — the Classification Comparator: per-pixel
  confusion labelling (TP = 1, FN = 2, FP = 3, No-Data = 255), pixel counts,
  areas and percentages.  Arrays are modelled as `List ℚ` of pixel values
  (the reference and the nearest-neighbour-aligned prediction, flattened);
  the sequential numpy mask assignments become successive `applyMask` passes
  over an array initialised with the no-data class.

* `NRMSE.py` — the Error Comparator: masked arrays are `List (ℚ × Bool)`
  (value, validity) pairs; `compute_nrmse` restricts both arrays to the
  joint validity mask, takes the RMSE and divides by a normalization factor.
  Exact rationals replace numpy floats; `Real.sqrt` gives the square roots.
  Numpy behaviours that produce no finite number (the masked result of a
  reduction over an empty selection, and division by a zero normalization
  factor, which yields inf/NaN) are modelled as `Option.none`, while raised
  exceptions become `Except.error`.
-/

namespace Inundation

/-! ## Classification Comparator (`Inundation_detector.py`) -/

/-- `INUNDATED_VALUE = 1` — pixel value indicating inundation (line 15). -/
def INUNDATED_VALUE : ℚ := 1

/-- `NODATA_CLASS = 255` — no-data value of the output classification (line 16). -/
def NODATA_CLASS : ℕ := 255

/-- `(ref_array == INUNDATED_VALUE) & (resampled_coarse == INUNDATED_VALUE)` (line 55). -/
def tpMask (ref pred : List ℚ) (pv : ℚ) : List Bool :=
  List.zipWith (fun r p => decide (r = pv) && decide (p = pv)) ref pred

/-- `(ref_array == INUNDATED_VALUE) & (resampled_coarse != INUNDATED_VALUE)` (line 56). -/
def fnMask (ref pred : List ℚ) (pv : ℚ) : List Bool :=
  List.zipWith (fun r p => decide (r = pv) && !(decide (p = pv))) ref pred

/-- `(ref_array != INUNDATED_VALUE) & (resampled_coarse == INUNDATED_VALUE)` (line 57). -/
def fpMask (ref pred : List ℚ) (pv : ℚ) : List Bool :=
  List.zipWith (fun r p => !(decide (r = pv)) && decide (p = pv)) ref pred

/-- Numpy boolean-mask assignment `arr[mask] = v`. -/
def applyMask (arr : List ℕ) (mask : List Bool) (v : ℕ) : List ℕ :=
  List.zipWith (fun a m => if m then v else a) arr mask

/-- Lines 60-63: the classification raster starts as a full `NODATA_CLASS`
array, then the TP, FN and FP masks are assigned 1, 2 and 3 in sequence. -/
def classification (ref pred : List ℚ) (pv : ℚ) : List ℕ :=
  applyMask
    (applyMask
      (applyMask (ref.map fun _ => NODATA_CLASS) (tpMask ref pred pv) 1)
      (fnMask ref pred pv) 2)
    (fpMask ref pred pv) 3

/-- `tp_count = np.sum(valid_mask)` (line 72). -/
def tp_count (ref pred : List ℚ) (pv : ℚ) : ℕ := (tpMask ref pred pv).count true

/-- `fn_count = np.sum(false_negatives)` (line 73). -/
def fn_count (ref pred : List ℚ) (pv : ℚ) : ℕ := (fnMask ref pred pv).count true

/-- `fp_count = np.sum(false_positives)` (line 74). -/
def fp_count (ref pred : List ℚ) (pv : ℚ) : ℕ := (fpMask ref pred pv).count true

/-- `total_inundated_pixels = np.sum(ref_array == INUNDATED_VALUE)` (lines 29-30). -/
def total_inundated_pixels (ref : List ℚ) (pv : ℚ) : ℕ :=
  ref.countP fun r => decide (r = pv)

/-- `(tp_count / total_inundated_pixels) * 100 if total_inundated_pixels > 0 else 0` (line 84). -/
def tp_pct (ref pred : List ℚ) (pv : ℚ) : ℚ :=
  if 0 < total_inundated_pixels ref pv then
    (tp_count ref pred pv : ℚ) / (total_inundated_pixels ref pv : ℚ) * 100
  else 0

/-- `(fn_count / total_inundated_pixels) * 100 if total_inundated_pixels > 0 else 0` (line 85). -/
def fn_pct (ref pred : List ℚ) (pv : ℚ) : ℚ :=
  if 0 < total_inundated_pixels ref pv then
    (fn_count ref pred pv : ℚ) / (total_inundated_pixels ref pv : ℚ) * 100
  else 0

/-- `(fp_count / total_inundated_pixels) * 100 if total_inundated_pixels > 0 else 0` (line 86). -/
def fp_pct (ref pred : List ℚ) (pv : ℚ) : ℚ :=
  if 0 < total_inundated_pixels ref pv then
    (fp_count ref pred pv : ℚ) / (total_inundated_pixels ref pv : ℚ) * 100
  else 0

/-- The six coefficients of a rasterio affine transform; index 0 is `c0`,
index 4 is `c4`. -/
structure Affine where
  c0 : ℚ
  c1 : ℚ
  c2 : ℚ
  c3 : ℚ
  c4 : ℚ
  c5 : ℚ

/-- `pixel_area = abs(transform[0] * transform[4])` (line 31). -/
def pixel_area (t : Affine) : ℚ := |t.c0 * t.c4|

/-- One row of the confusion-statistics table (lines 76-87). -/
structure InundationStats where
  resolution : String
  truePositives : ℕ
  falseNegatives : ℕ
  falsePositives : ℕ
  tpArea : ℚ
  fnArea : ℚ
  fpArea : ℚ
  tpPct : ℚ
  fnPct : ℚ
  fpPct : ℚ

/-- The statistics record appended for one prediction source (lines 76-87). -/
def makeStats (res : String) (ref pred : List ℚ) (pv : ℚ) (t : Affine) : InundationStats where
  resolution := res
  truePositives := tp_count ref pred pv
  falseNegatives := fn_count ref pred pv
  falsePositives := fp_count ref pred pv
  tpArea := (tp_count ref pred pv : ℚ) * pixel_area t
  fnArea := (fn_count ref pred pv : ℚ) * pixel_area t
  fpArea := (fp_count ref pred pv : ℚ) * pixel_area t
  tpPct := tp_pct ref pred pv
  fnPct := fn_pct ref pred pv
  fpPct := fp_pct ref pred pv

/-- The per-pixel priority rule of spec section 4.2: TP if both equal the
positive value, else FN if only the reference does, else FP if only the
prediction does, else No-Data.  Second definition for the refinement claim,
written from the spec's words. -/
def labelSpec (r p pv : ℚ) : ℕ :=
  if r = pv ∧ p = pv then 1
  else if r = pv ∧ p ≠ pv then 2
  else if r ≠ pv ∧ p = pv then 3
  else NODATA_CLASS

/-! ## Error Comparator (`NRMSE.py`) -/

/-- `mask = ~reference.mask & ~prediction.mask; ref_values = reference[mask];
pred_values = prediction[mask]` (lines 34-36): the (reference, prediction)
value pairs at pixels valid in both masked arrays.  A masked array is a list
of `(value, validity)` pairs, validity `true` meaning not masked. -/
def jointPairs (reference prediction : List (ℚ × Bool)) : List (ℚ × ℚ) :=
  (reference.zip prediction).filterMap fun rp =>
    if rp.1.2 && rp.2.2 then some (rp.1.1, rp.2.1) else none

/-- Arithmetic mean of a list of rationals, `np.mean` on a non-empty selection. -/
def qmean (l : List ℚ) : ℚ := l.sum / l.length

/-- Maximum of a non-empty list, `ndarray.max` (0 on the empty list, where
numpy would raise instead; `compute_nrmse` never evaluates that case). -/
def listMax : List ℚ → ℚ
  | [] => 0
  | a :: as => as.foldl max a

/-- Minimum of a non-empty list, `ndarray.min`. -/
def listMin : List ℚ → ℚ
  | [] => 0
  | a :: as => as.foldl min a

/-- Population variance, so that `np.std l = Real.sqrt (qvariance l)`. -/
def qvariance (l : List ℚ) : ℚ := qmean (l.map fun x => (x - qmean l) ^ 2)

/-- The reference values of the joint-valid selection (`ref_values`). -/
def refVals (vals : List (ℚ × ℚ)) : List ℚ := vals.map Prod.fst

/-- Mean of squared differences, `np.mean((ref_values - pred_values) ** 2)`. -/
def msd (vals : List (ℚ × ℚ)) : ℚ := qmean (vals.map fun v => (v.1 - v.2) ^ 2)

/-- `rmse = np.sqrt(np.mean((ref_values - pred_values) ** 2))` (line 39). -/
noncomputable def rmse (vals : List (ℚ × ℚ)) : ℝ := Real.sqrt ((msd vals : ℚ) : ℝ)

/-- Errors raised by `compute_nrmse`: the explicit `ValueError` of line 49
for an unknown normalization method, and numpy's zero-size-reduction
`ValueError` from `ref_values.max()` on an empty selection. -/
inductive NrmseErr where
  | invalidNorm : NrmseErr
  | emptyReduction : NrmseErr

open Classical in
/-- `(rmse / norm_factor) * 100` (line 51).  When the normalization factor is
exactly zero the float division yields inf or NaN — no finite real — which is
modelled as `none`. -/
noncomputable def scaleByNorm (r nf : ℝ) : Option ℝ :=
  if nf = 0 then none else some (r / nf * 100)

/-- `compute_nrmse(reference, prediction, normalization)` (lines 32-51).
The result is `Except.error` when the call raises, and otherwise
`Except.ok v` with `v = none` when no finite number is produced (numpy's
`masked` result of a mean/std reduction over an empty selection, or the
inf/NaN of dividing by a zero normalization factor). -/
noncomputable def compute_nrmse (reference prediction : List (ℚ × Bool))
    (normalization : String) : Except NrmseErr (Option ℝ) :=
  if normalization = "range" then
    if jointPairs reference prediction = [] then .error .emptyReduction
    else
      .ok (scaleByNorm (rmse (jointPairs reference prediction))
        ((listMax (refVals (jointPairs reference prediction)) -
          listMin (refVals (jointPairs reference prediction)) : ℚ) : ℝ))
  else if normalization = "mean" then
    if jointPairs reference prediction = [] then .ok none
    else
      .ok (scaleByNorm (rmse (jointPairs reference prediction))
        ((qmean (refVals (jointPairs reference prediction)) : ℚ) : ℝ))
  else if normalization = "std" then
    if jointPairs reference prediction = [] then .ok none
    else
      .ok (scaleByNorm (rmse (jointPairs reference prediction))
        (Real.sqrt ((qvariance (refVals (jointPairs reference prediction)) : ℚ) : ℝ)))
  else .error .invalidNorm

/-- One row of the NRMSE results table (lines 83-88). -/
structure NrmseRecord where
  varName : String
  predictionFile : String
  nrmse : Option ℝ
  normalizationMethod : String

/-- The per-prediction loop of `process_nrmse` (lines 73-91): a missing
prediction file is skipped with a warning; a present one is compared with
`compute_nrmse` and its record appended in order; an exception raised by
`compute_nrmse` propagates and aborts the loop. -/
noncomputable def process_nrmse (refData : List (ℚ × Bool))
    (varName normalizationMethod : String) :
    List (String × Option (List (ℚ × Bool))) → Except NrmseErr (List NrmseRecord)
  | [] => .ok []
  | (_, none) :: rest => process_nrmse refData varName normalizationMethod rest
  | (fname, some predData) :: rest =>
    match compute_nrmse refData predData normalizationMethod with
    | .error e => .error e
    | .ok v =>
      match process_nrmse refData varName normalizationMethod rest with
      | .error e => .error e
      | .ok others =>
        .ok ({ varName := varName, predictionFile := fname, nrmse := v,
               normalizationMethod := normalizationMethod } :: others)

/-- Spec section 4.3, step 1, written from the spec's words: the joint mask
is the pixel-wise AND of the two validity masks, and only jointly valid
pixels participate. -/
def specJointValues (reference prediction : List (ℚ × Bool)) : List (ℚ × ℚ) :=
  ((reference.zip prediction).filter fun rp => rp.1.2 && rp.2.2).map fun rp =>
    (rp.1.1, rp.2.1)

/-- Spec section 4.3, step 2, written from the spec's words: RMSE is the
square root of the mean of squared differences over the joint-valid subset. -/
noncomputable def specRmse (reference prediction : List (ℚ × Bool)) : ℝ :=
  Real.sqrt
    ((qmean ((specJointValues reference prediction).map fun v => (v.1 - v.2) ^ 2) : ℚ) : ℝ)

/-- Spec section 4.3, step 3, written from the spec's words: the
normalization factor over the reference values restricted to the joint-valid
subset — max − min for range, arithmetic mean for mean, population standard
deviation for std. -/
noncomputable def specNormFactor (reference prediction : List (ℚ × Bool))
    (normalization : String) : ℝ :=
  if normalization = "range" then
    ((listMax (refVals (specJointValues reference prediction)) -
      listMin (refVals (specJointValues reference prediction)) : ℚ) : ℝ)
  else if normalization = "mean" then
    ((qmean (refVals (specJointValues reference prediction)) : ℚ) : ℝ)
  else if normalization = "std" then
    Real.sqrt ((qvariance (refVals (specJointValues reference prediction)) : ℚ) : ℝ)
  else 0

/-! ## Helper lemmas -/

lemma classification_nil_left (pred : List ℚ) (pv : ℚ) :
    classification [] pred pv = [] := by
  simp [classification, tpMask, fnMask, fpMask, applyMask]

lemma classification_cons (r p : ℚ) (rs ps : List ℚ) (pv : ℚ) :
    classification (r :: rs) (p :: ps) pv =
      (if !(decide (r = pv)) && decide (p = pv) then 3
       else if decide (r = pv) && !(decide (p = pv)) then 2
       else if decide (r = pv) && decide (p = pv) then 1
       else NODATA_CLASS) :: classification rs ps pv := by
  simp only [classification, tpMask, fnMask, fpMask, applyMask, List.map_cons,
    List.zipWith_cons_cons]

lemma head_label_eq_labelSpec (r p pv : ℚ) :
    (if !(decide (r = pv)) && decide (p = pv) then 3
     else if decide (r = pv) && !(decide (p = pv)) then 2
     else if decide (r = pv) && decide (p = pv) then 1
     else NODATA_CLASS) = labelSpec r p pv := by
  by_cases hr : r = pv <;> by_cases hp : p = pv <;> simp [labelSpec, hr, hp]

lemma tp_add_fn_eq_total (ref pred : List ℚ) (pv : ℚ) (h : ref.length = pred.length) :
    tp_count ref pred pv + fn_count ref pred pv = total_inundated_pixels ref pv := by
  induction ref generalizing pred with
  | nil => simp [tp_count, fn_count, total_inundated_pixels, tpMask, fnMask]
  | cons r rs ih =>
    cases pred with
    | nil => simp at h
    | cons p ps =>
      simp only [List.length_cons, add_left_inj] at h
      have hind := ih ps h
      simp only [tp_count, fn_count, total_inundated_pixels, tpMask, fnMask,
        List.zipWith_cons_cons, List.count_cons, List.countP_cons] at hind ⊢
      by_cases hr : r = pv <;> by_cases hp : p = pv <;> simp [hr, hp] <;> omega

lemma zipWith_getD_disjoint (f g : ℚ → ℚ → Bool) (hfg : ∀ r p, (f r p && g r p) = false)
    (ref pred : List ℚ) (i : ℕ) :
    ((List.zipWith f ref pred).getD i false && (List.zipWith g ref pred).getD i false)
      = false := by
  induction ref generalizing pred i with
  | nil => simp
  | cons r rs ih =>
    cases pred with
    | nil => simp
    | cons p ps =>
      cases i with
      | zero => simpa using hfg r p
      | succ n => simpa using ih ps n

lemma mem_applyMask {x : ℕ} {arr : List ℕ} {mask : List Bool} {v : ℕ}
    (hx : x ∈ applyMask arr mask v) : x = v ∨ x ∈ arr := by
  induction arr generalizing mask with
  | nil => simp [applyMask] at hx
  | cons a as ih =>
    cases mask with
    | nil => simp [applyMask] at hx
    | cons b bs =>
      simp only [applyMask, List.zipWith_cons_cons, List.mem_cons] at hx
      rcases hx with hx | hx
      · cases b with
        | true => exact Or.inl (by simpa using hx)
        | false =>
          have hxa : x = a := by simpa using hx
          exact Or.inr (hxa ▸ List.mem_cons_self a as)
      · rcases ih (by simpa [applyMask] using hx) with h | h
        · exact Or.inl h
        · exact Or.inr (List.mem_cons_of_mem _ h)

/-! ## Claim theorems: Classification Comparator -/

/-- C1: for every reference array, aligned prediction array and
positive_value, the classification raster assigns each pixel exactly the
label of the spec's priority rule — TP (1) if both equal the positive value,
else FN (2) if only the reference does, else FP (3) if only the prediction
does, else No-Data (255). -/
theorem classification_matches_priority_rule (ref pred : List ℚ) (pv : ℚ)
    (h : ref.length = pred.length) :
    classification ref pred pv = List.zipWith (fun r p => labelSpec r p pv) ref pred := by
  induction ref generalizing pred with
  | nil => simp [classification_nil_left]
  | cons r rs ih =>
    cases pred with
    | nil => simp at h
    | cons p ps =>
      simp only [List.length_cons, add_left_inj] at h
      rw [classification_cons, head_label_eq_labelSpec, List.zipWith_cons_cons, ih ps h]

theorem classification_matches_priority_rule_witness :
    classification [(1:ℚ), 0] [(1:ℚ), 1] 1 =
      List.zipWith (fun r p => labelSpec r p 1) [(1:ℚ), 0] [(1:ℚ), 1] :=
  classification_matches_priority_rule [(1:ℚ), 0] [(1:ℚ), 1] 1 rfl

/-- C3: for aligned reference and prediction arrays,
`tp_count + fn_count` equals the number of reference pixels equal to the
positive value; the right-hand side does not mention the prediction array. -/
theorem tp_add_fn_eq_total_reference_positive (ref pred : List ℚ) (pv : ℚ)
    (h : ref.length = pred.length) :
    tp_count ref pred pv + fn_count ref pred pv = total_inundated_pixels ref pv :=
  tp_add_fn_eq_total ref pred pv h

theorem tp_add_fn_eq_total_reference_positive_witness :
    tp_count [(1:ℚ), 0, 1] [(1:ℚ), 1, 0] 1 + fn_count [(1:ℚ), 0, 1] [(1:ℚ), 1, 0] 1 =
      total_inundated_pixels [(1:ℚ), 0, 1] 1 :=
  tp_add_fn_eq_total_reference_positive [(1:ℚ), 0, 1] [(1:ℚ), 1, 0] 1 rfl

/-- C9: each area field of a confusion-statistics record equals the
corresponding pixel count multiplied exactly by
`pixel_area = |transform[0] * transform[4]|` of the reference georeference. -/
theorem area_fields_eq_count_mul_pixel_area (res : String) (ref pred : List ℚ)
    (pv : ℚ) (t : Affine) :
    (makeStats res ref pred pv t).tpArea = (tp_count ref pred pv : ℚ) * |t.c0 * t.c4| ∧
    (makeStats res ref pred pv t).fnArea = (fn_count ref pred pv : ℚ) * |t.c0 * t.c4| ∧
    (makeStats res ref pred pv t).fpArea = (fp_count ref pred pv : ℚ) * |t.c0 * t.c4| :=
  ⟨rfl, rfl, rfl⟩

/-- C10: the TP, FN and FP masks are pairwise disjoint, so each pixel is
written by at most one labelling pass over the no-data fill, and every pixel
of the classification array holds one of the values 1, 2, 3, 255. -/
theorem classification_masks_disjoint (ref pred : List ℚ) (pv : ℚ) :
    (∀ i : ℕ,
      ((tpMask ref pred pv).getD i false && (fnMask ref pred pv).getD i false) = false ∧
      ((tpMask ref pred pv).getD i false && (fpMask ref pred pv).getD i false) = false ∧
      ((fnMask ref pred pv).getD i false && (fpMask ref pred pv).getD i false) = false) ∧
    ((classification ref pred pv).all fun x =>
      decide (x = 1 ∨ x = 2 ∨ x = 3 ∨ x = NODATA_CLASS)) = true := by
  constructor
  · intro i
    simp only [tpMask, fnMask, fpMask]
    refine ⟨zipWith_getD_disjoint _ _ ?_ ref pred i,
      zipWith_getD_disjoint _ _ ?_ ref pred i,
      zipWith_getD_disjoint _ _ ?_ ref pred i⟩ <;>
      · intro r p
        by_cases hr : r = pv <;> by_cases hp : p = pv <;> simp [hr, hp]
  · rw [List.all_eq_true]
    intro x hx
    rcases mem_applyMask hx with h3 | hx
    · simp [h3]
    rcases mem_applyMask hx with h2 | hx
    · simp [h2]
    rcases mem_applyMask hx with h1 | hx
    · simp [h1]
    rcases List.mem_map.mp hx with ⟨a, _, ha⟩
    simp [← ha]

/-- C4 counterexample: with reference `[1,0,0]` and prediction `[1,1,1]`
(positive value 1) there is one reference-positive pixel and two false
positives, so the FP percentage is 200, outside [0, 100]. -/
theorem fp_percentage_exceeds_hundred :
    fp_pct [(1:ℚ), 0, 0] [(1:ℚ), 1, 1] 1 = 200 ∧
      ¬ fp_pct [(1:ℚ), 0, 0] [(1:ℚ), 1, 1] 1 ≤ 100 := by
  have hfp : fp_count [(1:ℚ), 0, 0] [(1:ℚ), 1, 1] 1 = 2 := by decide
  have htot : total_inundated_pixels [(1:ℚ), 0, 0] 1 = 1 := by decide
  constructor <;>
    · simp only [fp_pct, hfp, htot]
      norm_num

/-- C4 (amended): when `total_positive > 0` the TP and FN percentages lie
within [0, 100] and the FP percentage is non-negative (it is not bounded by
100); when `total_positive = 0` all three percentages are exactly 0. -/
theorem percentage_bounds_amended (ref pred : List ℚ) (pv : ℚ)
    (h : ref.length = pred.length) :
    (0 < total_inundated_pixels ref pv →
      0 ≤ tp_pct ref pred pv ∧ tp_pct ref pred pv ≤ 100 ∧
      0 ≤ fn_pct ref pred pv ∧ fn_pct ref pred pv ≤ 100 ∧
      0 ≤ fp_pct ref pred pv) ∧
    (total_inundated_pixels ref pv = 0 →
      tp_pct ref pred pv = 0 ∧ fn_pct ref pred pv = 0 ∧ fp_pct ref pred pv = 0) := by
  constructor
  · intro hpos
    have htot : (0:ℚ) < (total_inundated_pixels ref pv : ℚ) := by exact_mod_cast hpos
    have hsum := tp_add_fn_eq_total ref pred pv h
    have htp : (tp_count ref pred pv : ℚ) ≤ (total_inundated_pixels ref pv : ℚ) := by
      exact_mod_cast Nat.le_of_add_right_le (Nat.le_of_eq hsum)
    have hfn : (fn_count ref pred pv : ℚ) ≤ (total_inundated_pixels ref pv : ℚ) := by
      have : fn_count ref pred pv ≤ total_inundated_pixels ref pv := by omega
      exact_mod_cast this
    refine ⟨?_, ?_, ?_, ?_, ?_⟩ <;> simp only [tp_pct, fn_pct, fp_pct, if_pos hpos]
    · positivity
    · have h1 : (tp_count ref pred pv : ℚ) / (total_inundated_pixels ref pv : ℚ) ≤ 1 :=
        (div_le_one htot).mpr htp
      nlinarith [h1]
    · positivity
    · have h1 : (fn_count ref pred pv : ℚ) / (total_inundated_pixels ref pv : ℚ) ≤ 1 :=
        (div_le_one htot).mpr hfn
      nlinarith [h1]
    · positivity
  · intro hzero
    refine ⟨?_, ?_, ?_⟩ <;> simp [tp_pct, fn_pct, fp_pct, hzero]

theorem percentage_bounds_amended_witness :
    0 < total_inundated_pixels [(1:ℚ), 0, 0] 1 ∧
      (0 ≤ tp_pct [(1:ℚ), 0, 0] [(1:ℚ), 1, 1] 1 ∧
       tp_pct [(1:ℚ), 0, 0] [(1:ℚ), 1, 1] 1 ≤ 100 ∧
       0 ≤ fn_pct [(1:ℚ), 0, 0] [(1:ℚ), 1, 1] 1 ∧
       fn_pct [(1:ℚ), 0, 0] [(1:ℚ), 1, 1] 1 ≤ 100 ∧
       0 ≤ fp_pct [(1:ℚ), 0, 0] [(1:ℚ), 1, 1] 1) :=
  ⟨by decide,
    (percentage_bounds_amended [(1:ℚ), 0, 0] [(1:ℚ), 1, 1] 1 rfl).1 (by decide)⟩

/-! ## Helper lemmas: Error Comparator -/

lemma jointPairs_eq_spec (reference prediction : List (ℚ × Bool)) :
    specJointValues reference prediction = jointPairs reference prediction := by
  unfold specJointValues jointPairs
  induction reference.zip prediction with
  | nil => rfl
  | cons a l ih =>
    obtain ⟨⟨r, rv⟩, p, pb⟩ := a
    cases rv <;> cases pb <;> simp [List.filterMap_cons, List.filter_cons, ih]

lemma le_foldl_max (l : List ℚ) : ∀ a : ℚ, a ≤ l.foldl max a := by
  induction l with
  | nil => intro a; simp
  | cons b t ih =>
    intro a
    simpa using le_trans (le_max_left a b) (ih (max a b))

lemma foldl_min_le (l : List ℚ) : ∀ a : ℚ, l.foldl min a ≤ a := by
  induction l with
  | nil => intro a; simp
  | cons b t ih =>
    intro a
    simpa using le_trans (ih (min a b)) (min_le_left a b)

lemma listMin_le_listMax {l : List ℚ} (h : l ≠ []) : listMin l ≤ listMax l := by
  cases l with
  | nil => exact absurd rfl h
  | cons a t =>
    simp only [listMin, listMax]
    exact le_trans (foldl_min_le t a) (le_foldl_max t a)

lemma qmean_nonneg {l : List ℚ} (h : ∀ x ∈ l, 0 ≤ x) : 0 ≤ qmean l :=
  div_nonneg (List.sum_nonneg h) (Nat.cast_nonneg _)

lemma msd_nonneg (vals : List (ℚ × ℚ)) : 0 ≤ msd vals := by
  refine qmean_nonneg ?_
  intro x hx
  rcases List.mem_map.mp hx with ⟨v, _, rfl⟩
  positivity

lemma msd_eq_zero_of_identical {vals : List (ℚ × ℚ)}
    (h : ∀ v ∈ vals, v.1 = v.2) : msd vals = 0 := by
  unfold msd qmean
  have hz : ∀ x ∈ vals.map (fun v => (v.1 - v.2) ^ 2), x = 0 := by
    intro x hx
    rcases List.mem_map.mp hx with ⟨v, hv, rfl⟩
    rw [h v hv]
    ring
  rw [List.sum_eq_zero hz, zero_div]

lemma rmse_nonneg (vals : List (ℚ × ℚ)) : 0 ≤ rmse vals := Real.sqrt_nonneg _

lemma rmse_eq_zero_of_identical {vals : List (ℚ × ℚ)}
    (h : ∀ v ∈ vals, v.1 = v.2) : rmse vals = 0 := by
  rw [rmse, msd_eq_zero_of_identical h]
  simp

lemma scaleByNorm_of_ne {nf : ℝ} (r : ℝ) (h : nf ≠ 0) :
    scaleByNorm r nf = some (r / nf * 100) := by
  rw [scaleByNorm, if_neg h]

lemma scaleByNorm_zero (r : ℝ) : scaleByNorm r 0 = none := by
  rw [scaleByNorm, if_pos rfl]

lemma scaleByNorm_eq_some {r nf x : ℝ} (h : scaleByNorm r nf = some x) :
    nf ≠ 0 ∧ x = r / nf * 100 := by
  by_cases h0 : nf = 0
  · rw [h0, scaleByNorm_zero] at h
    cases h
  · rw [scaleByNorm_of_ne r h0] at h
    exact ⟨h0, (Option.some_inj.mp h).symm⟩

lemma scale_nonneg {r nf x : ℝ} (hr : 0 ≤ r) (hnf : 0 ≤ nf)
    (h : scaleByNorm r nf = some x) : 0 ≤ x := by
  obtain ⟨_, hx⟩ := scaleByNorm_eq_some h
  rw [hx]
  exact mul_nonneg (div_nonneg hr hnf) (by norm_num)

lemma scale_rmse_zero {vals : List (ℚ × ℚ)} {nf x : ℝ}
    (hid : ∀ v ∈ vals, v.1 = v.2) (h : scaleByNorm (rmse vals) nf = some x) :
    x = 0 := by
  obtain ⟨_, hx⟩ := scaleByNorm_eq_some h
  rw [hx, rmse_eq_zero_of_identical hid, zero_div, zero_mul]

/-! ## Claim theorems: Error Comparator -/

/-- C5 counterexample: with the single jointly valid pair (−1, 0) and
normalization "mean", the normalization factor is the (negative) reference
mean −1, so `compute_nrmse` returns −100, a negative value. -/
theorem nrmse_negative_for_mean_normalization :
    compute_nrmse [((-1:ℚ), true)] [((0:ℚ), true)] "mean" = .ok (some (-100)) ∧
      ((-100:ℝ) < 0) := by
  refine ⟨?_, by norm_num⟩
  have hjp : jointPairs [((-1:ℚ), true)] [((0:ℚ), true)] = [((-1:ℚ), (0:ℚ))] := rfl
  unfold compute_nrmse
  rw [if_neg (by decide : ¬("mean" = "range")), if_pos rfl,
    if_neg (by rw [hjp]; simp), hjp]
  have hq : qmean (refVals [((-1:ℚ), (0:ℚ))]) = -1 := by
    norm_num [qmean, refVals]
  have hrm : rmse [((-1:ℚ), (0:ℚ))] = 1 := by
    have hm : msd [((-1:ℚ), (0:ℚ))] = 1 := by norm_num [msd, qmean]
    rw [rmse, hm]
    simp
  rw [hq, hrm, scaleByNorm_of_ne _ (by norm_num : ((-1:ℚ):ℝ) ≠ 0)]
  norm_num

/-- C5 (amended): whenever `compute_nrmse` returns a finite value, that
value is non-negative under "range" and "std" normalization (under "mean"
the factor can be negative), and it is 0 whenever reference and prediction
agree on every jointly valid pixel. -/
theorem nrmse_nonneg_amended (reference prediction : List (ℚ × Bool))
    (normalization : String) (x : ℝ)
    (hres : compute_nrmse reference prediction normalization = .ok (some x)) :
    ((normalization = "range" ∨ normalization = "std") → 0 ≤ x) ∧
    ((∀ v ∈ jointPairs reference prediction, v.1 = v.2) → x = 0) := by
  by_cases h1 : normalization = "range"
  · subst h1
    unfold compute_nrmse at hres
    rw [if_pos rfl] at hres
    by_cases h0 : jointPairs reference prediction = []
    · rw [if_pos h0] at hres
      cases hres
    · rw [if_neg h0] at hres
      have hres' := Except.ok.inj hres
      refine ⟨fun _ => ?_, fun hid => scale_rmse_zero hid hres'⟩
      have hne : refVals (jointPairs reference prediction) ≠ [] := by
        simpa [refVals] using h0
      have hnn : (0:ℝ) ≤ ((listMax (refVals (jointPairs reference prediction)) -
          listMin (refVals (jointPairs reference prediction)) : ℚ) : ℝ) := by
        exact_mod_cast sub_nonneg.mpr (listMin_le_listMax hne)
      exact scale_nonneg (rmse_nonneg _) hnn hres'
  · by_cases h2 : normalization = "mean"
    · subst h2
      unfold compute_nrmse at hres
      rw [if_neg h1, if_pos rfl] at hres
      by_cases h0 : jointPairs reference prediction = []
      · rw [if_pos h0] at hres
        simp at hres
      · rw [if_neg h0] at hres
        have hres' := Except.ok.inj hres
        refine ⟨fun hrs => ?_, fun hid => scale_rmse_zero hid hres'⟩
        rcases hrs with hrs | hrs
        · exact absurd hrs h1
        · exact absurd hrs (by decide)
    · by_cases h3 : normalization = "std"
      · subst h3
        unfold compute_nrmse at hres
        rw [if_neg h1, if_neg h2, if_pos rfl] at hres
        by_cases h0 : jointPairs reference prediction = []
        · rw [if_pos h0] at hres
          simp at hres
        · rw [if_neg h0] at hres
          have hres' := Except.ok.inj hres
          exact ⟨fun _ => scale_nonneg (rmse_nonneg _) (Real.sqrt_nonneg _) hres',
            fun hid => scale_rmse_zero hid hres'⟩
      · unfold compute_nrmse at hres
        rw [if_neg h1, if_neg h2, if_neg h3] at hres
        cases hres

theorem nrmse_nonneg_amended_witness :
    compute_nrmse [((4:ℚ), true)] [((4:ℚ), true)] "mean" = .ok (some 0) ∧
      (0:ℝ) = 0 := by
  have hjp : jointPairs [((4:ℚ), true)] [((4:ℚ), true)] = [((4:ℚ), (4:ℚ))] := rfl
  have hev : compute_nrmse [((4:ℚ), true)] [((4:ℚ), true)] "mean" = .ok (some 0) := by
    unfold compute_nrmse
    rw [if_neg (by decide : ¬("mean" = "range")), if_pos rfl,
      if_neg (by rw [hjp]; simp), hjp]
    have hq : qmean (refVals [((4:ℚ), (4:ℚ))]) = 4 := by
      norm_num [qmean, refVals]
    have hrm : rmse [((4:ℚ), (4:ℚ))] = 0 := by
      have hm : msd [((4:ℚ), (4:ℚ))] = 0 := by norm_num [msd, qmean]
      rw [rmse, hm]
      simp
    rw [hq, hrm, scaleByNorm_of_ne _ (by norm_num : ((4:ℚ):ℝ) ≠ 0), zero_div, zero_mul]
  exact ⟨hev, (nrmse_nonneg_amended _ _ _ 0 hev).2 (by decide)⟩

/-- C6: at an empty joint-valid subset the code contains no explicit
Insufficient-Data guard: under "mean" (and "std") normalization the empty
reductions yield numpy's masked value, so `compute_nrmse` returns a value
rather than failing; only under "range" does it abort, and then with
numpy's incidental zero-size-reduction error from `ref_values.max()`. -/
theorem empty_joint_mask_behavior :
    compute_nrmse [((1:ℚ), false)] [((2:ℚ), true)] "mean" = .ok none ∧
    compute_nrmse [((1:ℚ), false)] [((2:ℚ), true)] "range" = .error .emptyReduction := by
  have hjp : jointPairs [((1:ℚ), false)] [((2:ℚ), true)] = [] := rfl
  constructor
  · unfold compute_nrmse
    rw [if_neg (by decide : ¬("mean" = "range")), if_pos rfl, if_pos hjp]
  · unfold compute_nrmse
    rw [if_pos rfl, if_pos hjp]

/-- C7: on a constant reference field under "range" normalization the
normalization factor is exactly 0 and the code divides by it with no guard:
`compute_nrmse` silently produces a non-finite float (modelled `none`)
instead of raising a Degenerate-Normalization error. -/
theorem zero_norm_factor_silent_nonfinite :
    compute_nrmse [((5:ℚ), true), ((5:ℚ), true)] [((4:ℚ), true), ((6:ℚ), true)]
      "range" = .ok none := by
  have hjp : jointPairs [((5:ℚ), true), ((5:ℚ), true)] [((4:ℚ), true), ((6:ℚ), true)] =
      [((5:ℚ), (4:ℚ)), ((5:ℚ), (6:ℚ))] := rfl
  unfold compute_nrmse
  rw [if_pos rfl, if_neg (by rw [hjp]; simp), hjp]
  have hnf : (listMax (refVals [((5:ℚ), (4:ℚ)), ((5:ℚ), (6:ℚ))]) -
      listMin (refVals [((5:ℚ), (4:ℚ)), ((5:ℚ), (6:ℚ))]) : ℚ) = 0 := by
    simp [refVals, listMax, listMin]
  rw [hnf]
  rw [show (((0:ℚ):ℝ)) = 0 by norm_num, scaleByNorm_zero]

/-- C8: for any normalization method other than "range", "mean" or "std",
`compute_nrmse` raises the configuration `ValueError`, and `process_nrmse`
emits no NRMSE record for any comparison (a successful result can only be
the empty list, when every prediction file was missing). -/
theorem invalid_normalization_raises (normalization : String)
    (h1 : normalization ≠ "range") (h2 : normalization ≠ "mean")
    (h3 : normalization ≠ "std") :
    (∀ reference prediction,
      compute_nrmse reference prediction normalization = .error .invalidNorm) ∧
    (∀ refData vn preds rs,
      process_nrmse refData vn normalization preds = .ok rs → rs = []) := by
  have hc : ∀ reference prediction : List (ℚ × Bool),
      compute_nrmse reference prediction normalization = .error .invalidNorm := by
    intro r p
    unfold compute_nrmse
    rw [if_neg h1, if_neg h2, if_neg h3]
  refine ⟨hc, ?_⟩
  intro refData vn preds
  induction preds with
  | nil =>
    intro rs h
    simp only [process_nrmse] at h
    exact (Except.ok.inj h).symm
  | cons hd rest ih =>
    obtain ⟨fname, pd⟩ := hd
    cases pd with
    | none =>
      intro rs h
      exact ih rs (by simpa [process_nrmse] using h)
    | some predData =>
      intro rs h
      simp only [process_nrmse, hc] at h
      exact Except.noConfusion h

theorem invalid_normalization_raises_witness :
    compute_nrmse [((1:ℚ), true)] [((1:ℚ), true)] "invalid" = .error .invalidNorm :=
  (invalid_normalization_raises "invalid" (by decide) (by decide) (by decide)).1
    [((1:ℚ), true)] [((1:ℚ), true)]

/-- C2: on any input with at least one jointly valid pixel, a normalization
method among "range", "mean" and "std", and a nonzero normalization factor,
`compute_nrmse` returns exactly (spec RMSE / spec normalization factor) × 100,
where the spec-side quantities are computed over the joint-valid subset as
section 4.3 prescribes. -/
theorem compute_nrmse_refines_spec (reference prediction : List (ℚ × Bool))
    (normalization : String)
    (h0 : jointPairs reference prediction ≠ [])
    (hm : normalization = "range" ∨ normalization = "mean" ∨ normalization = "std")
    (hnf : specNormFactor reference prediction normalization ≠ 0) :
    compute_nrmse reference prediction normalization =
      .ok (some (specRmse reference prediction /
        specNormFactor reference prediction normalization * 100)) := by
  have hjv := jointPairs_eq_spec reference prediction
  have hr : specRmse reference prediction = rmse (jointPairs reference prediction) := by
    rw [specRmse, rmse, msd, hjv]
  rcases hm with hm | hm | hm <;> subst hm
  · have hnf' : specNormFactor reference prediction "range" =
        ((listMax (refVals (jointPairs reference prediction)) -
          listMin (refVals (jointPairs reference prediction)) : ℚ) : ℝ) := by
      rw [specNormFactor, if_pos rfl, hjv]
    rw [hnf'] at hnf
    unfold compute_nrmse
    rw [if_pos rfl, if_neg h0, hr, hnf', scaleByNorm_of_ne _ hnf]
  · have hnf' : specNormFactor reference prediction "mean" =
        ((qmean (refVals (jointPairs reference prediction)) : ℚ) : ℝ) := by
      rw [specNormFactor, if_neg (by decide : ¬("mean" = "range")), if_pos rfl, hjv]
    rw [hnf'] at hnf
    unfold compute_nrmse
    rw [if_neg (by decide : ¬("mean" = "range")), if_pos rfl, if_neg h0, hr, hnf',
      scaleByNorm_of_ne _ hnf]
  · have hnf' : specNormFactor reference prediction "std" =
        Real.sqrt ((qvariance (refVals (jointPairs reference prediction)) : ℚ) : ℝ) := by
      rw [specNormFactor, if_neg (by decide : ¬("std" = "range")),
        if_neg (by decide : ¬("std" = "mean")), if_pos rfl, hjv]
    rw [hnf'] at hnf
    unfold compute_nrmse
    rw [if_neg (by decide : ¬("std" = "range")), if_neg (by decide : ¬("std" = "mean")),
      if_pos rfl, if_neg h0, hr, hnf', scaleByNorm_of_ne _ hnf]

theorem compute_nrmse_refines_spec_witness :
    jointPairs [((0:ℚ), true), ((4:ℚ), true)] [((0:ℚ), true), ((2:ℚ), true)] ≠ [] ∧
    compute_nrmse [((0:ℚ), true), ((4:ℚ), true)] [((0:ℚ), true), ((2:ℚ), true)] "range" =
      .ok (some (specRmse [((0:ℚ), true), ((4:ℚ), true)] [((0:ℚ), true), ((2:ℚ), true)] /
        specNormFactor [((0:ℚ), true), ((4:ℚ), true)] [((0:ℚ), true), ((2:ℚ), true)]
          "range" * 100)) := by
  have h0 : jointPairs [((0:ℚ), true), ((4:ℚ), true)] [((0:ℚ), true), ((2:ℚ), true)] ≠ [] := by
    exact fun h => List.noConfusion h
  have hq : (listMax (refVals (specJointValues [((0:ℚ), true), ((4:ℚ), true)]
      [((0:ℚ), true), ((2:ℚ), true)])) -
      listMin (refVals (specJointValues [((0:ℚ), true), ((4:ℚ), true)]
      [((0:ℚ), true), ((2:ℚ), true)])) : ℚ) = 4 := by
    have hsj : refVals (specJointValues [((0:ℚ), true), ((4:ℚ), true)]
        [((0:ℚ), true), ((2:ℚ), true)]) = [(0:ℚ), 4] := rfl
    rw [hsj]
    rw [show listMax [(0:ℚ), 4] = max 0 4 from rfl, show listMin [(0:ℚ), 4] = min 0 4 from rfl]
    rw [max_eq_right (by norm_num : (0:ℚ) ≤ 4), min_eq_left (by norm_num : (0:ℚ) ≤ 4)]
    norm_num
  have hnf : specNormFactor [((0:ℚ), true), ((4:ℚ), true)] [((0:ℚ), true), ((2:ℚ), true)]
      "range" ≠ 0 := by
    rw [specNormFactor, if_pos rfl, hq]
    norm_num
  exact ⟨h0, compute_nrmse_refines_spec _ _ "range" h0 (Or.inl rfl) hnf⟩

end Inundation
